import Mathlib

/-!
Verification of the OptiResume Resume Normalization & Generation
Orchestration pipeline.

The definitions below are a shallow embedding of the TypeScript /
JavaScript sources:
 - the Enhancement Engine (dedupSkills, normalizeBullets, enhanceResume)
   from ai-skill-analyzer-main/src/pages/BuildCVPage.tsx,
 - the generation client from ai-skill-analyzer-main/src/lib/api.ts,
 - the Node MCP protocol adapter from mcp-server/index.js.

JavaScript strings are embedded as Lean String / List Char; JS falsiness
of strings is the emptiness test; collaborator HTTP responses are passed
in explicitly as oracles.
-/

set_option maxRecDepth 16000

namespace OptiResume

/-- Whitespace as matched by the JS regex class backslash-s and by
String.prototype.trim (restricted to the code points that can reach the
pipeline; includes the common ASCII whitespace and NBSP). -/
def jsWS (c : Char) : Bool :=
  c = ' ' || c = '\t' || c = '\n' || c = '\r' ||
  c = Char.ofNat 0x0b || c = Char.ofNat 0x0c || c = Char.ofNat 0xa0

/-- JS String.prototype.trim on a character list. -/
def trimL (l : List Char) : List Char :=
  ((l.dropWhile (fun c => jsWS c)).reverse.dropWhile (fun c => jsWS c)).reverse

/-- JS String.prototype.trim. -/
def jsTrim (s : String) : String := String.mk (trimL s.data)

/-- JS short-circuit or (a or-or b) on strings: the empty string is the
only falsy string. -/
def jsOrS (a b : String) : String := if a = "" then b else a

/-- JS String.prototype.toLowerCase (ASCII, which covers every constant
compared against in the sources). -/
def jsLowerify (s : String) : String := String.mk (s.data.map Char.toLower)

/-- Worker for compactWSL: replace each maximal run of whitespace by a
single space (JS replace of the regex backslash-s-plus by a space,
global). The Bool records whether the previous character was part of a
whitespace run already emitted. -/
def compactWSGo : Bool → List Char → List Char
  | _, [] => []
  | prevWS, c :: r =>
    if jsWS c then
      (if prevWS then compactWSGo true r else ' ' :: compactWSGo true r)
    else c :: compactWSGo false r

/-- JS replace(whitespace-run, single space, global) on a character list. -/
def compactWSL (l : List Char) : List Char := compactWSGo false l

/-- JS replace(whitespace-run, single space, global) on a String. -/
def compactWSString (s : String) : String := String.mk (compactWSL s.data)

/-! ## Bullet normalization (normalizeBullets in BuildCVPage.tsx) -/

/-- Single-character delimiters of the bullet split regex: newline,
carriage return, the bullet sign U+2022, the hyphen, the en dash U+2013
and the em dash U+2014. -/
def bulletDelim (c : Char) : Bool :=
  c = '\n' || c = '\r' || c = Char.ofNat 0x2022 || c = '-' ||
  c = Char.ofNat 0x2013 || c = Char.ofNat 0x2014

/-- First character of the three-character mojibake bullet alternative
that appears literally in the source split regex (U+201A). -/
def mojiB1 : Char := Char.ofNat 0x201A

/-- Second character of the mojibake bullet alternative (U+00C4). -/
def mojiB2 : Char := Char.ofNat 0xC4

/-- Third character of the mojibake bullet alternative (U+00A2). -/
def mojiB3 : Char := Char.ofNat 0xA2

/-- Split on the bullet delimiters, including the three-character
mojibake sequence, accumulating the current token in reverse. The
first argument is fuel (structural recursion on it keeps the
definition kernel-reducible); each step consumes at least one input
character, so fuel equal to the input length is always sufficient. -/
def splitBulFuel : Nat → List Char → List Char → List (List Char)
  | 0, acc, _ => [acc.reverse]
  | _ + 1, acc, [] => [acc.reverse]
  | fuel + 1, acc, c :: rest =>
    if bulletDelim c then acc.reverse :: splitBulFuel fuel [] rest
    else
      match rest with
      | c2 :: c3 :: rest2 =>
        if c = mojiB1 ∧ c2 = mojiB2 ∧ c3 = mojiB3 then
          acc.reverse :: splitBulFuel fuel [] rest2
        else splitBulFuel fuel (c :: acc) rest
      | _ => splitBulFuel fuel (c :: acc) rest

/-- Split of the bullet regex over a whole character list. -/
def splitBulGo (acc : List Char) (l : List Char) : List (List Char) :=
  splitBulFuel l.length acc l

/-- Capitalize the first character (JS charAt(0).toUpperCase() plus
slice(1)). -/
def capitalizeJs : List Char → List Char
  | [] => []
  | c :: r => c.toUpper :: r

/-- Characters stripped from the end of a bullet line: period,
semicolon, colon, comma and whitespace. -/
def trailPunct (c : Char) : Bool :=
  c = '.' || c = ';' || c = ':' || c = ',' || jsWS c

/-- Strip trailing punctuation/whitespace (JS replace of the anchored
trailing class, global). -/
def trailStrip (l : List Char) : List Char :=
  (l.reverse.dropWhile (fun c => trailPunct c)).reverse

/-- The fixed list of strong action verbs from the source. -/
def strongVerbs : List String :=
  ["Led", "Built", "Implemented", "Optimized", "Designed", "Automated",
   "Improved", "Delivered", "Migrated", "Refactored", "Deployed",
   "Mentored", "Analyzed", "Architected", "Reduced"]

/-- Case-insensitive check that the second list starts with the first. -/
def startsWithCI : List Char → List Char → Bool
  | [], _ => true
  | _ :: _, [] => false
  | p :: ps, c :: cs => if p.toLower = c.toLower then startsWithCI ps cs else false

/-- JS regex word character (the class of letters, digits and the
underscore), used by the word boundary of the verb regex. -/
def isWordChar (c : Char) : Bool := c.isAlpha || c.isDigit || c = '_'

/-- Word boundary after the first n characters: either the string ends
there or the next character is not a word character. -/
def boundaryAfter (n : Nat) (t : List Char) : Bool :=
  match t.drop n with
  | [] => true
  | c :: _ => !isWordChar c

/-- The verb test of the source: case-insensitive match of one of the
strong verbs at the start of the line, followed by a word boundary. -/
def hasVerb (t : List Char) : Bool :=
  strongVerbs.any (fun v => startsWithCI v.data t && boundaryAfter v.data.length t)

/-- The three-character mojibake ellipsis marker appended on truncation,
exactly as the characters appear in the source (U+201A, U+00C4, U+00B6). -/
def ellipsisL : List Char := [Char.ofNat 0x201A, Char.ofNat 0xC4, Char.ofNat 0xB6]

/-- Truncation step of a bullet: keep at most 220 characters, appending
the ellipsis marker when something was cut. -/
def truncBullet (t : List Char) : List Char :=
  if 220 < t.length then t.take 220 ++ ellipsisL else t

/-- Per-line body of the bullet map: capitalize, strip trailing
punctuation, prepend the index-selected strong verb when the line does
not already start with one, compact whitespace, truncate. -/
def processBullet (i : Nat) (x : List Char) : List Char :=
  let t1 := trailStrip (capitalizeJs x)
  let t2 := if hasVerb t1 then t1
            else (strongVerbs.getD (i % strongVerbs.length) "").data ++ (' ' :: t1)
  truncBullet (compactWSL t2)

/-- The indexed map of the source (lines.map with the element index). -/
def mapBullets (i : Nat) : List (List Char) → List (List Char)
  | [] => []
  | x :: xs => processBullet i x :: mapBullets (i + 1) xs

/-- normalizeBullets before the final join: split, trim, drop empties,
process each line with its index, keep the first 6. -/
def normalizeBulletsList (text : List Char) : List (List Char) :=
  (mapBullets 0 (((splitBulGo [] text).map trimL).filter (fun l => l.isEmpty = false))).take 6

/-- normalizeBullets of the source: the processed lines joined by
newline. -/
def normalizeBullets (text : String) : String :=
  String.mk (List.intercalate ['\n'] (normalizeBulletsList text.data))

/-! ## Data model (src/types, résumé interfaces) -/

/-- personalInfo of ResumeData. -/
structure PersonalInfo where
  name : String
  email : String
  phone : String
  location : String
  linkedin : Option String
  github : Option String
  website : Option String
deriving DecidableEq

/-- An education entry. -/
structure Education where
  id : String
  degree : String
  institution : String
  location : String
  startDate : String
  endDate : String
  gpa : Option String
  description : Option String
deriving DecidableEq

/-- A work-experience entry. -/
structure WorkExperience where
  id : String
  title : String
  company : String
  location : String
  startDate : String
  endDate : String
  current : Bool
  description : String
  achievements : Option (List String)
deriving DecidableEq

/-- A project entry. -/
structure Project where
  id : String
  name : String
  description : String
  technologies : List String
  startDate : String
  endDate : String
  url : Option String
  github : Option String
deriving DecidableEq

/-- A skill entry. Category and proficiency are carried as strings; the
enhancement logic only ever reads the name. -/
structure Skill where
  id : String
  name : String
  category : String
  proficiency : String
deriving DecidableEq

/-- A certification entry. -/
structure Certification where
  id : String
  name : String
  issuer : String
  date : String
  expiryDate : Option String
  credentialId : Option String
  url : Option String
deriving DecidableEq

/-- The root ResumeData aggregate. -/
structure ResumeData where
  personalInfo : PersonalInfo
  summary : String
  education : List Education
  workExperience : List WorkExperience
  projects : List Project
  skills : List Skill
  certifications : List Certification
  template : String
  aiEnhancement : Bool
deriving DecidableEq

/-! ## Skill dedup (the filter over clone.skills in enhanceResume) -/

/-- The dedup key computed by the source: the expression (s maybe-name
or-else s) stringified, trimmed and lowercased. When the name is the
empty string (falsy), the or-else falls back to the skill OBJECT
itself, whose default stringification is the text
left-bracket object space Object right-bracket; trimmed and lowercased
that key is the all-lowercase variant. Otherwise the key is the
trimmed, lowercased name. -/
def skillKey (s : Skill) : String :=
  if s.name = "" then "[object object]" else jsLowerify (jsTrim s.name)

/-- The key the specification describes: trim plus lowercase of the
name, with no fallback for blank names. -/
def claimKey (s : Skill) : String := jsLowerify (jsTrim s.name)

/-- The seen-set filter of the source: drop an entry when its key is
empty (falsy) or already seen, otherwise keep it and remember the key. -/
def dedupGo (seen : List String) : List Skill → List Skill
  | [] => []
  | s :: rest =>
    if skillKey s = "" ∨ skillKey s ∈ seen then dedupGo seen rest
    else s :: dedupGo (skillKey s :: seen) rest

/-- Skill dedup of enhanceResume: the seen-set filter started empty. -/
def dedupSkills (skills : List Skill) : List Skill := dedupGo [] skills

/-! ## Summary synthesis and the Enhancement Engine -/

/-- The fixed impact-phrase list of the source. -/
def impactPhrases : List String :=
  ["deliver measurable outcomes", "ship reliable features",
   "optimize performance", "automate workflows",
   "improve user experience", "scale systems"]

/-- The element the source maps each post-dedup skill to when building
topSkills: the name when truthy, otherwise the skill object itself,
which the later array join stringifies to the text
left-bracket object space Object right-bracket. The subsequent
filter(Boolean) drops nothing, since both forms are truthy. -/
def skillDisplay (s : Skill) : String :=
  if s.name = "" then "[object Object]" else s.name

/-- The role guess of the source: the title of the first work
experience entry when present and truthy, else the default. -/
def roleGuess (work : List WorkExperience) : String :=
  match work with
  | [] => "Engineer"
  | w :: _ => jsOrS w.title "Engineer"

/-- The synthesized summary sentence of the source, built from the
post-dedup skills and the (bullet-normalized) work list. -/
def synthesizedSummary (skills : List Skill) (work : List WorkExperience) : String :=
  let topSkills := (skills.map skillDisplay).take 6
  let role := roleGuess work
  let impact := impactPhrases.getD ((role.length + topSkills.length) % impactPhrases.length) ""
  "Results-driven " ++ role ++ " with strengths in " ++
    String.intercalate ", " topSkills ++ ". Proven ability to " ++ impact ++ "."

/-- JS slice(0, 350) on a string. -/
def jsSlice350 (s : String) : String := String.mk (s.data.take 350)

/-- The per-entry work-experience transform of enhanceResume: the
description is bullet-normalized, everything else is kept. -/
def enhanceWork (w : WorkExperience) : WorkExperience :=
  { w with description := normalizeBullets w.description }

/-- The Enhancement Engine enhanceResume as a value-level function:
dedup the skills, bulletize the work descriptions, then rebuild the
summary (keeping a truthy existing summary) and whitespace-normalize,
trim and cap it at 350 characters. -/
def enhanceResume (d : ResumeData) : ResumeData :=
  let skills' := dedupSkills d.skills
  let work' := d.workExperience.map enhanceWork
  let summary' :=
    jsSlice350 (jsTrim (compactWSString (jsOrS d.summary (synthesizedSummary skills' work'))))
  { d with skills := skills', workExperience := work', summary := summary' }

/-- Titlecase of a skill name. Modelled from the spec: the claim about
summary synthesis says the skill names are titlecased; this definition
follows those words (first letter uppercased) and is used only to
compare the spec's wording with what the code produces. -/
def titlecaseName (s : String) : String :=
  match s.data with
  | [] => ""
  | c :: r => String.mk (c.toUpper :: r)

/-! ## Heap model of enhanceResume (for the no-mutation contract)

The source builds a deep copy of its argument via a JSON round trip and
assigns only to fields of that copy. To talk about mutation at all, the
imperative body is replayed over an explicit object heap: references
are indices into a list of ResumeData values, the JSON round trip is an
allocation of a fresh object holding the same value, and each
assignment to the clone is a store at the fresh reference. -/

/-- The empty résumé, used as the out-of-range default of heap reads. -/
def emptyResumeData : ResumeData :=
  { personalInfo := { name := "", email := "", phone := "", location := "",
                      linkedin := none, github := none, website := none },
    summary := "", education := [], workExperience := [], projects := [],
    skills := [], certifications := [], template := "", aiEnhancement := false }

/-- Read an object from the heap. -/
def heapGet (h : List ResumeData) (r : Nat) : ResumeData := h.getD r emptyResumeData

/-- The imperative body of enhanceResume over the explicit heap: clone
(allocate a value copy), then the three assignments to the clone's
skills, workExperience and summary fields, returning the final heap and
the reference to the clone. -/
def enhanceResumeHeap (h : List ResumeData) (src : Nat) : List ResumeData × Nat :=
  let cloneRef := h.length
  let h1 := h ++ [heapGet h src]
  let c1 := heapGet h1 cloneRef
  let h2 := h1.set cloneRef { c1 with skills := dedupSkills c1.skills }
  let c2 := heapGet h2 cloneRef
  let h3 := h2.set cloneRef { c2 with workExperience := c2.workExperience.map enhanceWork }
  let c3 := heapGet h3 cloneRef
  let h4 := h3.set cloneRef
    { c3 with summary :=
        jsSlice350 (jsTrim (compactWSString (jsOrS c3.summary (synthesizedSummary c3.skills c3.workExperience)))) }
  (h4, cloneRef)

/-! ## Template resolution and the generation payload (handleGenerate) -/

/-- The template expression of handleGenerate: draft template, or-else
the last-used template, or-else the first catalog entry, or-else the
hard-coded fallback. A missing first catalog entry behaves like the
empty string, since both are falsy to the or-else chain. -/
def resolveTemplate (draftTemplate lastUsedTemplate : String) (templates : List String) : String :=
  jsOrS draftTemplate (jsOrS lastUsedTemplate (jsOrS (templates.getD 0 "") "modern.tex"))

/-- The generation request body assembled by handleGenerate. -/
structure GeneratePayload where
  template : String
  data : ResumeData
  format : String
deriving DecidableEq

/-- handleGenerate's payload construction: resolved template, data run
through the Enhancement Engine exactly when the toggle is on, and the
requested format. -/
def handleGeneratePayload (resumeData : ResumeData) (lastUsedTemplate : String)
    (templates : List String) (format : String) : GeneratePayload :=
  { template := resolveTemplate resumeData.template lastUsedTemplate templates,
    data := if resumeData.aiEnhancement then enhanceResume resumeData else resumeData,
    format := format }

/-! ## Base64 (Node Buffer toString base64 and its inverse) -/

/-- The base64 alphabet. -/
def b64Alphabet : List Char :=
  "ABCDEFGHIJKLMNOPQRSTUVWXYZabcdefghijklmnopqrstuvwxyz0123456789+/".data

/-- The alphabet character of a 6-bit value. -/
def b64Char (n : Nat) : Char := b64Alphabet.getD n 'A'

/-- The 6-bit value of an alphabet character. -/
def b64Val (c : Char) : Nat := b64Alphabet.indexOf c

/-- Standard base64 of a byte list (RFC 4648 with padding), the
encoding produced by Node Buffer toString in the adapter's PDF branch. -/
def base64EncodeL : List Nat → List Char
  | [] => []
  | [a] => [b64Char (a / 4), b64Char (a % 4 * 16), '=', '=']
  | [a, b] => [b64Char (a / 4), b64Char (a % 4 * 16 + b / 16), b64Char (b % 16 * 4), '=']
  | a :: b :: c :: rest =>
    b64Char (a / 4) :: b64Char (a % 4 * 16 + b / 16) ::
      b64Char (b % 16 * 4 + c / 64) :: b64Char (c % 64) :: base64EncodeL rest

/-- Standard base64 decoding of a character list. Modelled from the
spec: the caller of the adapter recovers the PDF bytes by base64
decoding the text after the marker; this is that decoding. -/
def base64DecodeL : List Char → List Nat
  | c1 :: c2 :: c3 :: c4 :: rest =>
    if c3 = '=' then [b64Val c1 * 4 + b64Val c2 / 16]
    else if c4 = '=' then
      [b64Val c1 * 4 + b64Val c2 / 16, b64Val c2 % 16 * 16 + b64Val c3 / 4]
    else
      (b64Val c1 * 4 + b64Val c2 / 16) :: (b64Val c2 % 16 * 16 + b64Val c3 / 4) ::
        (b64Val c3 % 4 * 64 + b64Val c4) :: base64DecodeL rest
  | _ => []

/-! ## The browser generation client (generateResume in lib/api.ts) -/

/-- An HTTP response from the rendering backend, as the clients observe
it: success flag, status code, status text, and the body both as bytes
and as text. -/
structure RenderResponse where
  ok : Bool
  status : Nat
  statusText : String
  bodyBytes : List Nat
  bodyText : String
deriving DecidableEq

/-- Outcome of the browser client: a blob of bytes for PDF, text
otherwise. -/
inductive GenerateOutcome where
  | blob (bytes : List Nat)
  | text (t : String)
deriving DecidableEq

/-- generateResume of lib/api.ts. The fetch oracle gives the response
to the n-th request issued; the function awaits a single fetch (request
number zero), throws a generation error naming status and body text on
a non-ok response, and otherwise reads the body as blob or text
according to the requested format. -/
def generateResumeClient (fetchResp : Nat → RenderResponse) (format : String) :
    Except String GenerateOutcome :=
  let res := fetchResp 0
  if res.ok = false then
    .error ("Generation failed (" ++ toString res.status ++ "): " ++
      jsOrS res.bodyText res.statusText)
  else if format = "pdf" then .ok (.blob res.bodyBytes) else .ok (.text res.bodyText)

/-! ## The Node MCP protocol adapter (mcp-server/index.js) -/

/-- The collaborator environment of the adapter: file-system existence,
and the backend's answers (or thrown transport failures) for the three
endpoints it proxies. The render result carries the full HTTP response;
the adapter reads only its body. -/
structure McpEnv where
  fileExists : String → Bool
  templatesJson : Except String String
  uploadJson : String → Except String String
  renderResult : Except String RenderResponse

/-- A tool invocation as received by the CallTool handler. The résumé
data argument is abstracted to its presence, which is all the handler
inspects before forwarding it. -/
inductive ToolCall where
  | list_templates
  | extract_resume_data (file_path : Option String)
  | generate_resume_html (template : Option String) (resume_data_present : Bool)
  | generate_resume (template : Option String) (resume_data_present : Bool)
      (format : Option String)
  | unknown (name : String)

/-- The structured result envelope of a tool call: text content plus
the error tag. -/
structure ToolResult where
  text : String
  isError : Bool
deriving DecidableEq

/-- The body of the CallTool handler inside its try block: each throw
is an error value, each successful branch a text value. -/
def runTool (env : McpEnv) : ToolCall → Except String String
  | .list_templates => env.templatesJson
  | .extract_resume_data fp =>
    match fp with
    | none => .error "file_path is required"
    | some p =>
      if p = "" then .error "file_path is required"
      else if env.fileExists p = false then .error ("file not found: " ++ p)
      else env.uploadJson p
  | .generate_resume_html _ present =>
    if present = false then .error "resume_data is required"
    else
      match env.renderResult with
      | .error m => .error m
      | .ok r => .ok r.bodyText
  | .generate_resume _ present fmt =>
    if present = false then .error "resume_data is required"
    else
      match env.renderResult with
      | .error m => .error m
      | .ok r =>
        if jsLowerify (jsOrS (fmt.getD "") "html") = "pdf" then
          .ok ("PDF_BASE64:" ++ String.mk (base64EncodeL r.bodyBytes))
        else .ok r.bodyText

  | .unknown n => .error ("Unknown tool: " ++ n)

/-- The whole CallTool handler: the catch block turns every failure of
the try body into a structured error result. -/
def handleToolCall (env : McpEnv) (c : ToolCall) : ToolResult :=
  match runTool env c with
  | .ok t => { text := t, isError := false }
  | .error m => { text := "Error: " ++ m, isError := true }

/-! ## Upload merge (handleFileChange in BuildCVPage.tsx) -/

/-- The parsed partial résumé returned by extraction: every top-level
field optional. -/
structure ParsedResumePartial where
  personalInfo : Option PersonalInfo
  summary : Option String
  education : Option (List Education)
  workExperience : Option (List WorkExperience)
  projects : Option (List Project)
  skills : Option (List Skill)
  certifications : Option (List Certification)
  template : Option String
  aiEnhancement : Option Bool
deriving DecidableEq

/-- The merged record of handleFileChange: the spread of the draft
followed by the spread of the parsed partial, so a field present in the
parsed result wins and an absent one keeps the draft value. -/
def mergeParsed (draft : ResumeData) (parsed : ParsedResumePartial) : ResumeData :=
  { personalInfo := parsed.personalInfo.getD draft.personalInfo,
    summary := parsed.summary.getD draft.summary,
    education := parsed.education.getD draft.education,
    workExperience := parsed.workExperience.getD draft.workExperience,
    projects := parsed.projects.getD draft.projects,
    skills := parsed.skills.getD draft.skills,
    certifications := parsed.certifications.getD draft.certifications,
    template := parsed.template.getD draft.template,
    aiEnhancement := parsed.aiEnhancement.getD draft.aiEnhancement }

/-! ## Lemmas about bullet normalization -/

lemma truncBullet_length (t : List Char) : (truncBullet t).length ≤ 223 := by
  unfold truncBullet
  split
  · simp [ellipsisL, List.length_take]
  · omega

lemma processBullet_length (i : Nat) (x : List Char) :
    (processBullet i x).length ≤ 223 :=
  truncBullet_length _

lemma mem_mapBullets {l : List Char} :
    ∀ {i : Nat} {xs : List (List Char)}, l ∈ mapBullets i xs →
      ∃ j x, l = processBullet j x := by
  intro i xs
  induction xs generalizing i with
  | nil => simp [mapBullets]
  | cons x xs ih =>
    intro h
    rcases (by simpa [mapBullets] using h : l = processBullet i x ∨ l ∈ mapBullets (i + 1) xs) with h | h
    · exact ⟨i, x, h⟩
    · exact ih h

/-- Claim C1 (amended): bullet normalization emits at most 6 lines; no
emitted line exceeds 223 characters, namely 220 characters of content
plus the three-character mojibake ellipsis marker the source appends on
truncation (the claimed bound of 220 is off by the marker length); a
line already starting with a recognized strong action verb is processed
without prepending another verb; and the empty input description yields
the empty output. -/
theorem claim1_bullet_normalization (text : String) (i : Nat) (x : List Char)
    (hverb : hasVerb (trailStrip (capitalizeJs x)) = true) :
    (normalizeBulletsList text.data).length ≤ 6 ∧
    (∀ l ∈ normalizeBulletsList text.data, l.length ≤ 223) ∧
    processBullet i x = truncBullet (compactWSL (trailStrip (capitalizeJs x))) ∧
    normalizeBullets "" = "" := by
  refine ⟨?_, ?_, ?_, ?_⟩
  · rw [normalizeBulletsList, List.length_take]
    exact min_le_left _ _
  · intro l hl
    rw [normalizeBulletsList] at hl
    obtain ⟨j, x', rfl⟩ := mem_mapBullets (List.mem_of_mem_take hl)
    exact processBullet_length j x'
  · simp [processBullet, hverb]
  · decide

/-- Counterexample to claim C1 as stated: on an input of 250 letters the
single emitted line has 223 characters, exceeding the claimed bound of
220 (220 kept characters plus the three-character ellipsis marker). -/
theorem claim1_counterexample :
    ∃ l ∈ normalizeBulletsList (List.replicate 250 'a'), 220 < l.length := by
  decide

/-- Witness for claim C1 at concrete inputs. -/
theorem claim1_witness :
    (normalizeBulletsList ("alpha - beta".data)).length ≤ 6 ∧
    (∀ l ∈ normalizeBulletsList ("alpha - beta".data), l.length ≤ 223) ∧
    processBullet 0 ("Led team".data) =
      truncBullet (compactWSL (trailStrip (capitalizeJs ("Led team".data)))) ∧
    normalizeBullets "" = "" :=
  claim1_bullet_normalization "alpha - beta" 0 ("Led team".data) (by decide)

/-! ## Lemmas about skill dedup -/

lemma dedupGo_sublist (l : List Skill) : ∀ seen, List.Sublist (dedupGo seen l) l := by
  induction l with
  | nil => intro seen; simp [dedupGo]
  | cons s rest ih =>
    intro seen
    rw [dedupGo]
    split
    · exact (ih seen).cons s
    · exact (ih _).cons₂ s

lemma mem_dedupGo {t : Skill} :
    ∀ {l : List Skill} {seen : List String},
      t ∈ dedupGo seen l → skillKey t ≠ "" ∧ skillKey t ∉ seen := by
  intro l
  induction l with
  | nil => intro seen h; simp [dedupGo] at h
  | cons s rest ih =>
    intro seen h
    rw [dedupGo] at h
    by_cases hc : skillKey s = "" ∨ skillKey s ∈ seen
    · rw [if_pos hc] at h
      exact ih h
    · rw [if_neg hc] at h
      push_neg at hc
      rcases List.mem_cons.mp h with rfl | h
      · exact hc
      · obtain ⟨h1, h2⟩ := ih h
        exact ⟨h1, fun hmem => h2 (List.mem_cons_of_mem _ hmem)⟩

lemma dedupGo_keys_nodup : ∀ (l : List Skill) (seen : List String),
    ((dedupGo seen l).map skillKey).Nodup := by
  intro l
  induction l with
  | nil => intro seen; simp [dedupGo]
  | cons s rest ih =>
    intro seen
    rw [dedupGo]
    split
    · exact ih seen
    · rw [List.map_cons, List.nodup_cons]
      refine ⟨?_, ih _⟩
      intro hmem
      obtain ⟨t, ht, hkey⟩ := List.mem_map.mp hmem
      exact (mem_dedupGo ht).2 (hkey ▸ List.mem_cons_self _ _)

lemma dedupGo_eq_self : ∀ (l : List Skill) (seen : List String),
    (∀ s ∈ l, skillKey s ≠ "" ∧ skillKey s ∉ seen) →
    (l.map skillKey).Nodup → dedupGo seen l = l := by
  intro l
  induction l with
  | nil => intro seen _ _; simp [dedupGo]
  | cons s rest ih =>
    intro seen h hnd
    obtain ⟨hs1, hs2⟩ := h s (List.mem_cons_self _ _)
    rw [List.map_cons, List.nodup_cons] at hnd
    rw [dedupGo, if_neg (by push_neg; exact ⟨hs1, hs2⟩)]
    congr 1
    apply ih
    · intro t ht
      obtain ⟨h1, h2⟩ := h t (List.mem_cons_of_mem _ ht)
      refine ⟨h1, ?_⟩
      intro hmem
      rcases List.mem_cons.mp hmem with heq | hmem'
      · exact hnd.1 (List.mem_map.mpr ⟨t, ht, heq⟩)
      · exact h2 hmem'
    · exact hnd.2

lemma dedupSkills_idem (skills : List Skill) :
    dedupSkills (dedupSkills skills) = dedupSkills skills := by
  unfold dedupSkills
  apply dedupGo_eq_self
  · intro s hs
    exact ⟨(mem_dedupGo hs).1, by simp⟩
  · exact dedupGo_keys_nodup _ _

lemma dedupGo_find_count (k : String) (hk : k ≠ "") :
    ∀ (l : List Skill) (seen : List String), k ∉ seen →
    (dedupGo seen l).find? (fun t => skillKey t == k) =
      l.find? (fun t => skillKey t == k) ∧
    (dedupGo seen l).countP (fun t => skillKey t == k) =
      (if l.any (fun t => skillKey t == k) then 1 else 0) := by
  intro l
  induction l with
  | nil => intro seen _; simp [dedupGo]
  | cons s rest ih =>
    intro seen hns
    rw [dedupGo]
    by_cases hc : skillKey s = "" ∨ skillKey s ∈ seen
    · rw [if_pos hc]
      have hps : (skillKey s == k) = false := by
        rcases hc with h1 | h2
        · simp [h1]
          exact fun e => hk e.symm
        · simp
          intro e
          exact hns (e ▸ h2)
      obtain ⟨f1, c1⟩ := ih seen hns
      refine ⟨?_, ?_⟩
      · rw [f1, List.find?_cons, hps]
      · rw [c1, List.any_cons, hps]
        simp
    · rw [if_neg hc]
      push_neg at hc
      by_cases hek : skillKey s = k
      · have hps : (skillKey s == k) = true := by simp [hek]
        refine ⟨?_, ?_⟩
        · rw [List.find?_cons, hps, List.find?_cons, hps]
        · have hzero :
              (dedupGo (skillKey s :: seen) rest).countP (fun t => skillKey t == k) = 0 := by
            rw [List.countP_eq_zero]
            intro t ht hpt
            have h2 := (mem_dedupGo ht).2
            have : skillKey t = k := by simpa using hpt
            exact h2 (by rw [this, ← hek]; exact List.mem_cons_self _ _)
          rw [List.countP_cons, hzero, List.any_cons, hps]
          simp [hps]
      · have hps : (skillKey s == k) = false := by simp [hek]
        have hns' : k ∉ skillKey s :: seen := by
          intro hmem
          rcases List.mem_cons.mp hmem with heq | hmem'
          · exact hek heq.symm
          · exact hns hmem'
        obtain ⟨f1, c1⟩ := ih (skillKey s :: seen) hns'
        refine ⟨?_, ?_⟩
        · rw [List.find?_cons, hps, List.find?_cons, hps, f1]
        · rw [List.countP_cons, hps, c1, List.any_cons, hps]
          simp

lemma claimKey_of_blank_name (s : Skill) (h : s.name = "") : claimKey s = "" := by
  rw [claimKey, h]
  rfl

/-- Claim C3 (amended): skill dedup is idempotent and keeps the kept
entries in their original relative order (the result is a sublist of
the input); for an entry whose trim-plus-lowercase key is nonempty, the
code's key agrees with the claimed key, exactly one entry with that key
survives, and it is the first occurrence of that key in the input. The
restriction to nonempty keys is forced by the counterexample: entries
whose name trims to the empty string are removed outright rather than
collapsed to their first occurrence. -/
theorem claim3_skill_dedup (skills : List Skill) (s : Skill)
    (hmem : s ∈ skills) (hkey : claimKey s ≠ "") :
    dedupSkills (dedupSkills skills) = dedupSkills skills ∧
    List.Sublist (dedupSkills skills) skills ∧
    skillKey s = claimKey s ∧
    (dedupSkills skills).find? (fun t => skillKey t == skillKey s) =
      skills.find? (fun t => skillKey t == skillKey s) ∧
    (dedupSkills skills).countP (fun t => skillKey t == skillKey s) = 1 := by
  have hname : s.name ≠ "" := fun h => hkey (claimKey_of_blank_name s h)
  have hagree : skillKey s = claimKey s := by rw [skillKey, claimKey, if_neg hname]
  have hkey' : skillKey s ≠ "" := by rw [hagree]; exact hkey
  obtain ⟨hfind, hcount⟩ :=
    dedupGo_find_count (skillKey s) hkey' skills [] (by simp)
  refine ⟨dedupSkills_idem skills, dedupGo_sublist skills [], hagree, hfind, ?_⟩
  rw [dedupSkills, hcount, if_pos]
  rw [List.any_eq_true]
  exact ⟨s, hmem, by simp⟩

/-- A skill whose name is a single space. -/
def blankSkill1 : Skill :=
  { id := "1", name := " ", category := "technical", proficiency := "intermediate" }

/-- A skill whose name is two spaces. -/
def blankSkill2 : Skill :=
  { id := "2", name := "  ", category := "technical", proficiency := "intermediate" }

/-- Counterexample to claim C3 as stated: two entries whose names
differ only by whitespace (both trim to the empty key) are not
collapsed into the single first-occurring entry; dedup removes both. -/
theorem claim3_counterexample :
    dedupSkills [blankSkill1, blankSkill2] = [] ∧
    claimKey blankSkill1 = claimKey blankSkill2 ∧
    (dedupSkills [blankSkill1, blankSkill2]).find?
      (fun t => claimKey t == claimKey blankSkill1) = none := by
  decide

/-- First of the three case/whitespace variants of React. -/
def skillReact1 : Skill :=
  { id := "1", name := "React ", category := "technical", proficiency := "advanced" }

/-- Second variant. -/
def skillReact2 : Skill :=
  { id := "2", name := "react", category := "technical", proficiency := "advanced" }

/-- Third variant. -/
def skillReact3 : Skill :=
  { id := "3", name := "REACT", category := "technical", proficiency := "advanced" }

/-- Witness for claim C3 on the spec's own example list. -/
theorem claim3_witness :
    dedupSkills (dedupSkills [skillReact1, skillReact2, skillReact3]) =
      dedupSkills [skillReact1, skillReact2, skillReact3] ∧
    List.Sublist (dedupSkills [skillReact1, skillReact2, skillReact3])
      [skillReact1, skillReact2, skillReact3] ∧
    skillKey skillReact1 = claimKey skillReact1 ∧
    (dedupSkills [skillReact1, skillReact2, skillReact3]).find?
        (fun t => skillKey t == skillKey skillReact1) =
      [skillReact1, skillReact2, skillReact3].find?
        (fun t => skillKey t == skillKey skillReact1) ∧
    (dedupSkills [skillReact1, skillReact2, skillReact3]).countP
        (fun t => skillKey t == skillKey skillReact1) = 1 :=
  claim3_skill_dedup [skillReact1, skillReact2, skillReact3] skillReact1
    (by decide) (by decide)

/-! ## Lemmas for the blank-name claim (C10) -/

lemma countP_blank_le_one : ∀ (L : List Skill),
    ((L.map skillKey).Nodup) → L.countP (fun u => u.name == "") ≤ 1 := by
  intro L
  induction L with
  | nil => intro _; simp
  | cons u L ih =>
    intro hnd
    rw [List.map_cons, List.nodup_cons] at hnd
    rw [List.countP_cons]
    by_cases hu : u.name = ""
    · have hzero : L.countP (fun u => u.name == "") = 0 := by
        rw [List.countP_eq_zero]
        intro v hv hpv
        have hvn : v.name = "" := by simpa using hpv
        have : skillKey v = skillKey u := by rw [skillKey, skillKey, if_pos hvn, if_pos hu]
        exact hnd.1 (List.mem_map.mpr ⟨v, hv, this⟩)
      simp [hzero, hu]
    · have := ih hnd.2
      simp [hu]
      omega

/-- Claim C10 (amended): dedup removes every entry whose name is a
nonempty whitespace-only string (its trim-plus-lowercase key is empty,
hence falsy); but an entry whose name is empty or missing is keyed by
the default object stringification instead, so a single blank-named
entry can survive — the enhanced skills list contains at most one entry
with an empty name, not none as claimed. -/
theorem claim10_blank_skill_removal (skills : List Skill) (t : Skill)
    (ht : t ∈ dedupSkills skills) (hname : t.name ≠ "") :
    jsTrim t.name ≠ "" ∧
    (dedupSkills skills).countP (fun u => u.name == "") ≤ 1 := by
  refine ⟨?_, countP_blank_le_one _ (dedupGo_keys_nodup _ _)⟩
  intro hblank
  apply (mem_dedupGo ht).1
  rw [skillKey, if_neg hname, hblank]
  rfl

/-- A skill whose name is the empty string. -/
def emptyNameSkill : Skill :=
  { id := "1", name := "", category := "technical", proficiency := "intermediate" }

/-- Counterexample to claim C10 as stated: an entry with an empty name
is kept by dedup (its key falls back to the object stringification), so
the enhanced skills list can contain a blank-named entry. -/
theorem claim10_counterexample :
    dedupSkills [emptyNameSkill] = [emptyNameSkill] ∧ emptyNameSkill.name = "" := by
  decide

/-- Witness for claim C10 at a concrete list. -/
theorem claim10_witness :
    jsTrim skillReact2.name ≠ "" ∧
    (dedupSkills [skillReact2]).countP (fun u => u.name == "") ≤ 1 :=
  claim10_blank_skill_removal [skillReact2] skillReact2 (by decide) (by decide)

/-! ## Lemmas about base64 -/

lemma b64Val_b64Char {v : Nat} (hv : v < 64) : b64Val (b64Char v) = v := by
  have h : ∀ w : Fin 64, b64Val (b64Char w.val) = w.val := by decide
  exact h ⟨v, hv⟩

lemma b64Char_ne_pad (n : Nat) : b64Char n ≠ '=' := by
  by_cases h : n < 64
  · have hall : ∀ w : Fin 64, b64Char w.val ≠ '=' := by decide
    exact hall ⟨n, h⟩
  · rw [b64Char, List.getD_eq_default]
    · decide
    · have hlen : b64Alphabet.length = 64 := by decide
      omega

lemma base64_roundtrip : ∀ (bytes : List Nat), (∀ b ∈ bytes, b < 256) →
    base64DecodeL (base64EncodeL bytes) = bytes
  | [], _ => rfl
  | [a], h => by
    have ha : a < 256 := h a (by simp)
    rw [base64EncodeL, base64DecodeL, if_pos rfl]
    rw [b64Val_b64Char (by omega), b64Val_b64Char (by omega)]
    simp only [List.cons.injEq, and_true]
    omega
  | [a, b], h => by
    have ha : a < 256 := h a (by simp)
    have hb : b < 256 := h b (by simp)
    rw [base64EncodeL, base64DecodeL, if_neg (b64Char_ne_pad _), if_pos rfl]
    rw [b64Val_b64Char (by omega), b64Val_b64Char (by omega), b64Val_b64Char (by omega)]
    simp only [List.cons.injEq, and_true]
    omega
  | a :: b :: c :: rest, h => by
    have ha : a < 256 := h a (by simp)
    have hb : b < 256 := h b (by simp)
    have hc : c < 256 := h c (by simp)
    have ih := base64_roundtrip rest (fun x hx => h x (by simp [hx]))
    rw [base64EncodeL, base64DecodeL,
        if_neg (b64Char_ne_pad _), if_neg (b64Char_ne_pad _)]
    rw [b64Val_b64Char (by omega), b64Val_b64Char (by omega),
        b64Val_b64Char (by omega), b64Val_b64Char (by omega), ih]
    simp only [List.cons.injEq, and_true]
    omega

/-- Claim C5: through the adapter, a generation call whose (defaulted,
lowercased) format is the pdf format returns exactly the fixed marker
followed by the base64 encoding of the rendering service's bytes, and
base64-decoding that part recovers the original bytes; the format
defaults to html when absent. -/
theorem claim5_pdf_base64 (env : McpEnv) (t fmtArg : Option String) (r : RenderResponse)
    (hr : env.renderResult = .ok r) (hb : ∀ b ∈ r.bodyBytes, b < 256)
    (hf : jsLowerify (jsOrS (fmtArg.getD "") "html") = "pdf") :
    handleToolCall env (.generate_resume t true fmtArg) =
      { text := "PDF_BASE64:" ++ String.mk (base64EncodeL r.bodyBytes), isError := false } ∧
    base64DecodeL (base64EncodeL r.bodyBytes) = r.bodyBytes ∧
    jsLowerify (jsOrS ((none : Option String).getD "") "html") = "html" := by
  refine ⟨?_, base64_roundtrip r.bodyBytes hb, by decide⟩
  simp [handleToolCall, runTool, hr, hf]

/-- A successful PDF response carrying the magic bytes of a PDF file. -/
def pdfRenderResponse : RenderResponse :=
  { ok := true, status := 200, statusText := "OK",
    bodyBytes := [0x25, 0x50, 0x44, 0x46], bodyText := "" }

/-- A concrete collaborator environment whose render call returns the
PDF response above. -/
def envPdf : McpEnv :=
  { fileExists := fun _ => false,
    templatesJson := .error "network unreachable",
    uploadJson := fun _ => .error "network unreachable",
    renderResult := .ok pdfRenderResponse }

/-- Witness for claim C5: the spec's own byte vector, with an uppercase
format argument exercising the case-insensitive comparison. -/
theorem claim5_witness :
    handleToolCall envPdf (.generate_resume none true (some "PDF")) =
      { text := "PDF_BASE64:" ++ String.mk (base64EncodeL pdfRenderResponse.bodyBytes),
        isError := false } ∧
    base64DecodeL (base64EncodeL pdfRenderResponse.bodyBytes) = pdfRenderResponse.bodyBytes ∧
    jsLowerify (jsOrS ((none : Option String).getD "") "html") = "html" :=
  claim5_pdf_base64 envPdf none (some "PDF") pdfRenderResponse rfl (by decide) (by decide)

/-! ## Lemmas about summary synthesis -/

lemma roleGuess_map_enhanceWork (work : List WorkExperience) :
    roleGuess (work.map enhanceWork) = roleGuess work := by
  cases work with
  | nil => rfl
  | cons w ws => simp [roleGuess, enhanceWork]

lemma jsSlice350_length (s : String) : (jsSlice350 s).length ≤ 350 := by
  have h : (jsSlice350 s).length = (s.data.take 350).length := rfl
  rw [h, List.length_take]
  exact min_le_left _ _

/-- Claim C2 (amended): on a draft with an empty summary, the
Enhancement Engine sets the summary to the template sentence built from
the role guess, the first 6 post-dedup skill display names joined by a
comma and space, and the impact phrase selected by (role length + top
skill count) mod list size, whitespace-normalized, trimmed, and
truncated to 350 characters. The skill names are used verbatim — the
titlecasing the claim describes does not happen (an entry with an empty
name even surfaces as the object stringification). The result never
exceeds 350 characters. -/
theorem claim2_summary_synthesis (d : ResumeData) (h : d.summary = "") :
    (enhanceResume d).summary =
      jsSlice350 (jsTrim (compactWSString (
        "Results-driven " ++ roleGuess d.workExperience ++ " with strengths in " ++
        String.intercalate ", " (((dedupSkills d.skills).map skillDisplay).take 6) ++
        ". Proven ability to " ++
        impactPhrases.getD
          (((roleGuess d.workExperience).length +
            (((dedupSkills d.skills).map skillDisplay).take 6).length) %
            impactPhrases.length) "" ++ "."))) ∧
    (enhanceResume d).summary.length ≤ 350 := by
  constructor
  · simp [enhanceResume, synthesizedSummary, jsOrS, h, roleGuess_map_enhanceWork]
  · exact jsSlice350_length _

/-- The empty personal-info record, used by concrete sample drafts. -/
def emptyPersonalInfo : PersonalInfo :=
  { name := "", email := "", phone := "", location := "",
    linkedin := none, github := none, website := none }

/-- A draft with no summary, no work experience and one lowercase skill
name. -/
def draftLowercaseSkill : ResumeData :=
  { personalInfo := emptyPersonalInfo, summary := "", education := [],
    workExperience := [], projects := [],
    skills := [{ id := "1", name := "react", category := "technical",
                 proficiency := "intermediate" }],
    certifications := [], template := "", aiEnhancement := true }

/-- Counterexample to claim C2 as stated: the synthesized summary keeps
the skill name react in lowercase; the titlecase the claim requires
would produce React, so the claimed sentence differs from the one the
code produces. -/
theorem claim2_counterexample :
    (enhanceResume draftLowercaseSkill).summary =
      "Results-driven Engineer with strengths in react. Proven ability to automate workflows." ∧
    titlecaseName "react" = "React" ∧
    (enhanceResume draftLowercaseSkill).summary ≠
      "Results-driven Engineer with strengths in React. Proven ability to automate workflows." := by
  decide

/-- Witness for claim C2 at the concrete draft. -/
theorem claim2_witness :
    (enhanceResume draftLowercaseSkill).summary =
      "Results-driven Engineer with strengths in react. Proven ability to automate workflows." ∧
    (enhanceResume draftLowercaseSkill).summary.length ≤ 350 := by
  have h := claim2_summary_synthesis draftLowercaseSkill rfl
  exact ⟨by decide, h.2⟩

/-! ## Template resolution (claim C4) -/

/-- Claim C4: the template placed in the generation request is the
first truthy value among the draft's template, the last-used template,
the first entry of the loaded catalog, and the hard-coded fallback. -/
theorem claim4_template_resolution (rd : ResumeData) (lastUsed : String)
    (templates : List String) (format : String) :
    (rd.template ≠ "" →
      (handleGeneratePayload rd lastUsed templates format).template = rd.template) ∧
    (rd.template = "" → lastUsed ≠ "" →
      (handleGeneratePayload rd lastUsed templates format).template = lastUsed) ∧
    (rd.template = "" → lastUsed = "" → templates.getD 0 "" ≠ "" →
      (handleGeneratePayload rd lastUsed templates format).template = templates.getD 0 "") ∧
    (rd.template = "" → lastUsed = "" → templates.getD 0 "" = "" →
      (handleGeneratePayload rd lastUsed templates format).template = "modern.tex") := by
  refine ⟨?_, ?_, ?_, ?_⟩
  · intro h1
    show resolveTemplate rd.template lastUsed templates = rd.template
    simp only [resolveTemplate, jsOrS]
    rw [if_neg h1]
  · intro h1 h2
    show resolveTemplate rd.template lastUsed templates = lastUsed
    simp only [resolveTemplate, jsOrS, h1, if_true]
    rw [if_neg h2]
  · intro h1 h2 h3
    show resolveTemplate rd.template lastUsed templates = templates.getD 0 ""
    simp only [resolveTemplate, jsOrS, h1, h2, if_true]
    rw [if_neg h3]
  · intro h1 h2 h3
    show resolveTemplate rd.template lastUsed templates = "modern.tex"
    simp only [resolveTemplate, jsOrS, h1, h2, if_true]
    rw [if_pos h3]

/-- A draft carrying an explicit template. -/
def draftWithTemplate : ResumeData :=
  { emptyResumeData with template := "classic_professional.tex" }

/-- Witness for claim C4: the four scenarios of the spec, each isolating
one precedence level. -/
theorem claim4_witness :
    (handleGeneratePayload draftWithTemplate "billryan_basic.tex" ["minimal_clean.tex"]
        "html").template = "classic_professional.tex" ∧
    (handleGeneratePayload emptyResumeData "billryan_basic.tex" ["minimal_clean.tex"]
        "html").template = "billryan_basic.tex" ∧
    (handleGeneratePayload emptyResumeData "" ["minimal_clean.tex"] "html").template =
      "minimal_clean.tex" ∧
    (handleGeneratePayload emptyResumeData "" [] "html").template = "modern.tex" :=
  ⟨(claim4_template_resolution draftWithTemplate "billryan_basic.tex" ["minimal_clean.tex"]
      "html").1 (by decide),
   (claim4_template_resolution emptyResumeData "billryan_basic.tex" ["minimal_clean.tex"]
      "html").2.1 rfl (by decide),
   (claim4_template_resolution emptyResumeData "" ["minimal_clean.tex"] "html").2.2.1
      rfl rfl (by decide),
   (claim4_template_resolution emptyResumeData "" [] "html").2.2.2 rfl rfl rfl⟩

/-! ## Claim C6: non-success render responses -/

/-- Claim C6 (amended): the browser client generateResume surfaces a
non-ok rendering response as a generation error carrying the status
code and the body text (falling back to the status text when the body
is empty), and its result depends only on the first response — it
issues a single request, with no automatic retry. The Node protocol
adapter, by contrast, never inspects the response status: whenever the
render fetch itself succeeds, the adapter returns the body as a
success-tagged result even when the status is a failure. -/
theorem claim6_generation_error (fetchResp : Nat → RenderResponse) (format : String)
    (env : McpEnv) (t fmt : Option String) (r : RenderResponse)
    (hok : (fetchResp 0).ok = false) (hr : env.renderResult = .ok r) :
    generateResumeClient fetchResp format =
      .error ("Generation failed (" ++ toString (fetchResp 0).status ++ "): " ++
        jsOrS (fetchResp 0).bodyText (fetchResp 0).statusText) ∧
    (∀ g : Nat → RenderResponse, g 0 = fetchResp 0 →
      generateResumeClient g format = generateResumeClient fetchResp format) ∧
    (handleToolCall env (.generate_resume t true fmt)).isError = false := by
  refine ⟨?_, ?_, ?_⟩
  · simp [generateResumeClient, hok]
  · intro g hg
    simp [generateResumeClient, hg]
  · simp only [handleToolCall, runTool, hr]
    by_cases hpdf : jsLowerify (jsOrS (fmt.getD "") "html") = "pdf"
    · simp [hpdf]
    · simp [hpdf]

/-- A failing rendering response: status 500 with an error body. -/
def badRenderResponse : RenderResponse :=
  { ok := false, status := 500, statusText := "Internal Server Error",
    bodyBytes := [], bodyText := "render exploded" }

/-- An environment whose render call transport-succeeds but reports a
failing HTTP status. -/
def envBadStatus : McpEnv :=
  { fileExists := fun _ => false,
    templatesJson := .error "network unreachable",
    uploadJson := fun _ => .error "network unreachable",
    renderResult := .ok badRenderResponse }

/-- Counterexample to claim C6 as stated: through the protocol adapter a
generation call whose rendering response has a non-success status (500)
comes back as a success-tagged result whose text is just the body — no
generation error, no status code. -/
theorem claim6_counterexample :
    handleToolCall envBadStatus (.generate_resume none true none) =
      { text := "render exploded", isError := false } ∧
    badRenderResponse.ok = false ∧
    badRenderResponse.status = 500 := by
  decide

/-- Witness for claim C6 at a concrete failing response. -/
theorem claim6_witness :
    generateResumeClient (fun _ => badRenderResponse) "html" =
      .error "Generation failed (500): render exploded" ∧
    (handleToolCall envBadStatus (.generate_resume none true none)).isError = false := by
  have h := claim6_generation_error (fun _ => badRenderResponse) "html"
    envBadStatus none none badRenderResponse rfl rfl
  refine ⟨?_, h.2.2⟩
  rw [h.1]
  rfl

/-! ## Claim C7: the adapter error envelope -/

/-- Claim C7: every failure inside a tool-call operation — unknown tool
name, missing required input, non-existent file path, collaborator
failure — is reported as a structured result tagged as an error rather
than escaping; and the error tag exactly separates failures from
successes of the handler body. -/
theorem claim7_adapter_error_envelope (env : McpEnv) (name fp m : String)
    (t fmt : Option String) (c : ToolCall)
    (hfp : fp ≠ "") (hnf : env.fileExists fp = false) :
    handleToolCall env (.unknown name) =
      { text := "Error: Unknown tool: " ++ name, isError := true } ∧
    handleToolCall env (.extract_resume_data none) =
      { text := "Error: file_path is required", isError := true } ∧
    handleToolCall env (.extract_resume_data (some fp)) =
      { text := "Error: file not found: " ++ fp, isError := true } ∧
    (env.templatesJson = .error m →
      handleToolCall env .list_templates = { text := "Error: " ++ m, isError := true }) ∧
    handleToolCall env (.generate_resume t false fmt) =
      { text := "Error: resume_data is required", isError := true } ∧
    ((handleToolCall env c).isError = false ↔ ∃ s, runTool env c = .ok s) := by
  refine ⟨rfl, rfl, ?_, ?_, rfl, ?_⟩
  · have hrun : runTool env (.extract_resume_data (some fp)) =
        .error ("file not found: " ++ fp) := by
      simp [runTool, hfp, hnf]
    rw [handleToolCall, hrun]
    rfl
  · intro hm
    have hrun : runTool env .list_templates = .error m := hm
    rw [handleToolCall, hrun]
  · cases hrun : runTool env c with
    | ok s => simp [handleToolCall, hrun]
    | error e => simp [handleToolCall, hrun]

/-- Witness for claim C7 at the concrete environment with no reachable
collaborators and no existing files. -/
theorem claim7_witness :
    handleToolCall envBadStatus (.extract_resume_data (some "missing.pdf")) =
      { text := "Error: file not found: missing.pdf", isError := true } ∧
    handleToolCall envBadStatus (.generate_resume none false none) =
      { text := "Error: resume_data is required", isError := true } ∧
    handleToolCall envBadStatus .list_templates =
      { text := "Error: network unreachable", isError := true } := by
  have h := claim7_adapter_error_envelope envBadStatus "zap" "missing.pdf"
    "network unreachable" none none .list_templates (by decide) rfl
  exact ⟨h.2.2.1, h.2.2.2.2.1, h.2.2.2.1 rfl⟩

/-! ## Claim C8: the upload shallow merge -/

/-- Claim C8: merging an extraction result into the draft is a shallow
merge — every top-level field present in the parsed partial overwrites
the draft's field, and every absent field keeps the draft's value. -/
theorem claim8_shallow_merge (draft : ResumeData) (parsed : ParsedResumePartial) :
    ((∀ v, parsed.personalInfo = some v → (mergeParsed draft parsed).personalInfo = v) ∧
     (parsed.personalInfo = none → (mergeParsed draft parsed).personalInfo = draft.personalInfo)) ∧
    ((∀ v, parsed.summary = some v → (mergeParsed draft parsed).summary = v) ∧
     (parsed.summary = none → (mergeParsed draft parsed).summary = draft.summary)) ∧
    ((∀ v, parsed.education = some v → (mergeParsed draft parsed).education = v) ∧
     (parsed.education = none → (mergeParsed draft parsed).education = draft.education)) ∧
    ((∀ v, parsed.workExperience = some v → (mergeParsed draft parsed).workExperience = v) ∧
     (parsed.workExperience = none →
        (mergeParsed draft parsed).workExperience = draft.workExperience)) ∧
    ((∀ v, parsed.projects = some v → (mergeParsed draft parsed).projects = v) ∧
     (parsed.projects = none → (mergeParsed draft parsed).projects = draft.projects)) ∧
    ((∀ v, parsed.skills = some v → (mergeParsed draft parsed).skills = v) ∧
     (parsed.skills = none → (mergeParsed draft parsed).skills = draft.skills)) ∧
    ((∀ v, parsed.certifications = some v → (mergeParsed draft parsed).certifications = v) ∧
     (parsed.certifications = none →
        (mergeParsed draft parsed).certifications = draft.certifications)) ∧
    ((∀ v, parsed.template = some v → (mergeParsed draft parsed).template = v) ∧
     (parsed.template = none → (mergeParsed draft parsed).template = draft.template)) ∧
    ((∀ v, parsed.aiEnhancement = some v → (mergeParsed draft parsed).aiEnhancement = v) ∧
     (parsed.aiEnhancement = none →
        (mergeParsed draft parsed).aiEnhancement = draft.aiEnhancement)) := by
  refine ⟨⟨?_, ?_⟩, ⟨?_, ?_⟩, ⟨?_, ?_⟩, ⟨?_, ?_⟩, ⟨?_, ?_⟩, ⟨?_, ?_⟩, ⟨?_, ?_⟩,
    ⟨?_, ?_⟩, ⟨?_, ?_⟩⟩ <;>
  · first
      | (intro v hv; simp [mergeParsed, hv])
      | (intro hn; simp [mergeParsed, hn])

/-- The spec's merge example draft: an existing summary and nonempty
personal info, no skills yet. -/
def draftOldSummary : ResumeData :=
  { emptyResumeData with
      summary := "old",
      personalInfo := { emptyPersonalInfo with name := "Ada" } }

/-- The spec's merge example extraction result: a new summary and a
skills list, everything else absent. -/
def parsedNewSummary : ParsedResumePartial :=
  { personalInfo := none, summary := some "new", education := none,
    workExperience := none, projects := none, skills := some [skillReact2],
    certifications := none, template := none, aiEnhancement := none }

/-- Witness for claim C8 on the spec's example: the parsed summary and
skills win, the untouched personal info survives. -/
theorem claim8_witness :
    (mergeParsed draftOldSummary parsedNewSummary).summary = "new" ∧
    (mergeParsed draftOldSummary parsedNewSummary).skills = [skillReact2] ∧
    (mergeParsed draftOldSummary parsedNewSummary).personalInfo =
      draftOldSummary.personalInfo := by
  have h := claim8_shallow_merge draftOldSummary parsedNewSummary
  exact ⟨h.2.1.1 "new" rfl, h.2.2.2.2.2.1.1 [skillReact2] rfl, h.1.2 rfl⟩

/-! ## Claim C9: the Enhancement Engine does not mutate its input -/

lemma heapGet_set_ne (l : List ResumeData) (j i : Nat) (v : ResumeData) (hne : j ≠ i) :
    heapGet (l.set j v) i = heapGet l i := by
  rw [heapGet, heapGet, List.getD_eq_getElem?_getD, List.getD_eq_getElem?_getD,
    List.getElem?_set_ne hne]

lemma heapGet_set_eq (l : List ResumeData) (i : Nat) (v : ResumeData) (hi : i < l.length) :
    heapGet (l.set i v) i = v := by
  rw [heapGet, List.getD_eq_getElem?_getD, List.getElem?_set_eq_of_lt v hi]
  rfl

lemma heapGet_append_lt (l l' : List ResumeData) (i : Nat) (hi : i < l.length) :
    heapGet (l ++ l') i = heapGet l i := by
  rw [heapGet, heapGet, List.getD_eq_getElem?_getD, List.getD_eq_getElem?_getD,
    List.getElem?_append, if_pos hi]

lemma heapGet_concat_length (l : List ResumeData) (v : ResumeData) :
    heapGet (l ++ [v]) l.length = v := by
  rw [heapGet, List.getD_eq_getElem?_getD, List.getElem?_concat_length]
  rfl

/-- Claim C9: replaying the imperative body of enhanceResume over an
explicit object heap, every pre-existing object — in particular the
caller's draft — is left unchanged; the only write target is the fresh
clone, whose final value is exactly the pure function enhanceResume of
the input; and the returned reference is distinct from the input
reference. -/
theorem claim9_enhance_no_mutation (h : List ResumeData) (src : Nat)
    (hsrc : src < h.length) :
    (∀ i, i < h.length →
      heapGet (enhanceResumeHeap h src).1 i = heapGet h i) ∧
    heapGet (enhanceResumeHeap h src).1 (enhanceResumeHeap h src).2 =
      enhanceResume (heapGet h src) ∧
    (enhanceResumeHeap h src).2 ≠ src := by
  have hlen1 : (h ++ [heapGet h src]).length = h.length + 1 := by simp
  refine ⟨?_, ?_, ?_⟩
  · intro i hi
    show heapGet ((((h ++ [heapGet h src]).set h.length _).set h.length _).set h.length _) i =
      heapGet h i
    rw [heapGet_set_ne _ _ _ _ (by omega), heapGet_set_ne _ _ _ _ (by omega),
      heapGet_set_ne _ _ _ _ (by omega), heapGet_append_lt _ _ _ hi]
  · show heapGet ((((h ++ [heapGet h src]).set h.length _).set h.length _).set h.length _)
      h.length = enhanceResume (heapGet h src)
    rw [heapGet_set_eq _ _ _ (by simp), heapGet_set_eq _ _ _ (by simp),
      heapGet_set_eq _ _ _ (by simp), heapGet_concat_length]
    rfl
  · show h.length ≠ src
    omega

/-- Witness for claim C9 on a one-object heap. -/
theorem claim9_witness :
    (∀ i, i < [draftLowercaseSkill].length →
      heapGet (enhanceResumeHeap [draftLowercaseSkill] 0).1 i =
        heapGet [draftLowercaseSkill] i) ∧
    heapGet (enhanceResumeHeap [draftLowercaseSkill] 0).1
        (enhanceResumeHeap [draftLowercaseSkill] 0).2 =
      enhanceResume (heapGet [draftLowercaseSkill] 0) ∧
    (enhanceResumeHeap [draftLowercaseSkill] 0).2 ≠ 0 :=
  claim9_enhance_no_mutation [draftLowercaseSkill] 0 (by decide)

end OptiResume
